import Mathlib

/-!
Verification of the bit-banged I2C engine and LP5569 LED-sequencer driver
(`src/cmd/gpio_drive_strength.c`) against its natural-language specification.

The embedding has three granularities, each faithful to the layer of the C
code it models:

* Pin level (`PinEv`): `i2c_start`, `i2c_stop`, `i2c_write_bit`,
  `i2c_read_bit`, `i2c_sda_high`, `i2c_write_byte` are modelled as functions
  producing the exact sequence of SCL/SDA pin operations and delays the C
  code performs.  The environment is a stream `σ : Nat → Int` giving the
  result of the k-th GPIO read of the SDA line (the chip's acknowledgments);
  a counter threads the stream position.
* Transaction level (`TxEv`): `i2c_set_register` is modelled over the same
  SDA-sample stream, logging start/stop conditions and byte writes.  The
  acknowledgment consumed by each `i2c_write_byte` is derived from the pin
  level (see `i2c_write_byte_result`): a byte write consumes two samples —
  one discarded by `i2c_sda_high`, one returned by `i2c_read_bit`.
* Register level (`LpEv`): the LP5569 driver functions only observe the
  `int` returned by `i2c_set_register`, so they are modelled over an oracle
  `res : Nat → Int` giving the result of the j-th `i2c_set_register` call of
  a run, and they log every attempted register write (and the retry delays
  of the command loop).
-/

set_option maxRecDepth 16384

namespace UBoot

/-- One pin-level operation of the bit-banged bus: driving SCL or SDA
(`set_scl` / `set_sda`, whose `int bit` argument is recorded verbatim),
sampling SDA (`get_sda`, recording the sampled value), or a `udelay`. -/
inductive PinEv
| setScl (bit : Int)
| setSda (bit : Int)
| getSda (v : Int)
| delayUs (us : Int)
deriving DecidableEq

/-- `i2c_start`: delay, SDA high, delay, SCL high, delay, SDA low, delay. -/
def i2c_start (d : Int) : List PinEv :=
  [.delayUs d, .setSda 1, .delayUs d, .setScl 1, .delayUs d, .setSda 0, .delayUs d]

/-- `i2c_stop`: SCL low, delay, SDA low, delay, SCL high, delay, SDA high, delay. -/
def i2c_stop (d : Int) : List PinEv :=
  [.setScl 0, .delayUs d, .setSda 0, .delayUs d, .setScl 1, .delayUs d, .setSda 1, .delayUs d]

/-- `i2c_write_bit(bus, bit)`: SCL low, delay, SDA := `bit` (the `uint8_t`
argument is passed to `set_sda` unchanged), delay, SCL high, delay of two
units. -/
def i2c_write_bit (d : Int) (bit : Nat) : List PinEv :=
  [.setScl 0, .delayUs d, .setSda (bit : Int), .delayUs d, .setScl 1, .delayUs (2 * d)]

/-- `i2c_read_bit(bus)`: SCL high, delay, sample SDA, delay, SCL low, delay
of two units; returns the sampled value and the advanced stream position. -/
def i2c_read_bit (d : Int) (σ : Nat → Int) (k : Nat) : List PinEv × Int × Nat :=
  ([.setScl 1, .delayUs d, .getSda (σ k), .delayUs d, .setScl 0, .delayUs (2 * d)],
   σ k, k + 1)

/-- `i2c_sda_high(bus)`: SCL low, delay, SDA high, delay, then a discarded
read of SDA (which still consumes one sample of the stream). -/
def i2c_sda_high (d : Int) (σ : Nat → Int) (k : Nat) : List PinEv × Nat :=
  ([.setScl 0, .delayUs d, .setSda 1, .delayUs d, .getSda (σ k)], k + 1)

/-- The eight successive arguments `data & 0x80` that the loop in
`i2c_write_byte` passes to `i2c_write_bit`, with `data <<= 1` performed on a
`uint8_t` (i.e. modulo 256) after each bit. -/
def i2c_write_byte_bits : Nat → Nat → List Nat
  | _, 0 => []
  | data, j + 1 => (data.land 0x80) :: i2c_write_byte_bits ((data * 2) % 256) j

/-- `i2c_write_byte(bus, data)`: eight `i2c_write_bit` calls with the
arguments of `i2c_write_byte_bits`, one unit delay, `i2c_sda_high`, then
`i2c_read_bit`; the sampled acknowledgment (negative logic) is returned. -/
def i2c_write_byte (d : Int) (σ : Nat → Int) (data : Nat) (k : Nat) :
    List PinEv × Int × Nat :=
  let bitTr := ((i2c_write_byte_bits data 8).map (fun b => i2c_write_bit d b)).flatten
  let (hTr, k1) := i2c_sda_high d σ k
  let (aTr, nack, k2) := i2c_read_bit d σ k1
  (bitTr ++ [.delayUs d] ++ hTr ++ aTr, nack, k2)

/-- A byte write consumes two SDA samples: one discarded by `i2c_sda_high`
and one returned by `i2c_read_bit` as the (negative-logic) acknowledgment. -/
theorem i2c_write_byte_result (d : Int) (σ : Nat → Int) (data k : Nat) :
    (i2c_write_byte d σ data k).2 = (σ (k + 1), k + 2) := rfl

/-- The logic level (0 for a released/low argument, 1 for any nonzero
argument) carried by each `i2c_write_bit` call is the corresponding bit of
the value, most significant first. -/
theorem write_byte_bits_levels : ∀ v, v < 256 →
    (i2c_write_byte_bits v 8).map (fun b => if b = 0 then (0 : Nat) else 1) =
      [7, 6, 5, 4, 3, 2, 1, 0].map (fun t => if v.testBit t then (1 : Nat) else 0) := by
  decide

/-- Every argument the `i2c_write_byte` loop passes to `i2c_write_bit` is
`data & 0x80`, hence 0 or 128. -/
theorem write_byte_bits_mask : ∀ v, v < 256 →
    ∀ b ∈ i2c_write_byte_bits v 8, b = 0 ∨ b = 128 := by
  decide

/-- On a high data bit the argument is exactly 128. -/
theorem write_byte_bits_high : ∀ v, v < 256 → ∀ t, t < 8 →
    v.testBit (7 - t) = true → (i2c_write_byte_bits v 8).getD t 0 = 128 := by
  decide

/-- Claim C5: for every 8-bit value, `i2c_write_byte` issues exactly eight
`i2c_write_bit` calls, carrying the value's bits (as logic levels: a nonzero
argument drives the line high) in most-significant-bit-first order, all of
them before the acknowledgment is sampled by `i2c_sda_high`/`i2c_read_bit`;
in particular the bit sequence transmitted for `0xA5` is `[1,0,1,0,0,1,0,1]`. -/
theorem i2c_write_byte_msb_first (d : Int) (σ : Nat → Int) (v k : Nat)
    (hv : v < 256) :
    (i2c_write_byte_bits v 8).length = 8 ∧
    (i2c_write_byte_bits v 8).map (fun b => if b = 0 then (0 : Nat) else 1) =
      [7, 6, 5, 4, 3, 2, 1, 0].map (fun t => if v.testBit t then (1 : Nat) else 0) ∧
    (i2c_write_byte_bits 0xA5 8).map (fun b => if b = 0 then (0 : Nat) else 1) =
      [1, 0, 1, 0, 0, 1, 0, 1] ∧
    (i2c_write_byte d σ v k).1 =
      ((i2c_write_byte_bits v 8).map (fun b => i2c_write_bit d b)).flatten
        ++ [PinEv.delayUs d] ++ (i2c_sda_high d σ k).1 ++ (i2c_read_bit d σ (k + 1)).1 := by
  refine ⟨?_, write_byte_bits_levels v hv, by decide, rfl⟩
  suffices h : ∀ w, (i2c_write_byte_bits w 8).length = 8 from h v
  intro w
  rfl

/-- Claim C5 witness at `v = 0xA5`. -/
theorem i2c_write_byte_msb_first_witness :
    (i2c_write_byte_bits 0xA5 8).map (fun b => if b = 0 then (0 : Nat) else 1) =
      [1, 0, 1, 0, 0, 1, 0, 1] :=
  (i2c_write_byte_msb_first 5 (fun _ => 0) 0xA5 0 (by decide)).2.2.1

/-- Claim C10: during the eight data bits of `i2c_write_byte` the value
passed on to the data-line setter for each bit is `data & 0x80`, i.e. either
0 or 128 and never 1; on every high data bit it is exactly 128, a value
outside `{0,1}`, and `i2c_write_bit` hands exactly that argument to
`set_sda`. -/
theorem i2c_write_bit_arg_values (v : Nat) (hv : v < 256) :
    (∀ b ∈ i2c_write_byte_bits v 8, b = 0 ∨ b = 128) ∧
    (∀ b ∈ i2c_write_byte_bits v 8, b ≠ 1) ∧
    (∀ t, t < 8 → v.testBit (7 - t) = true →
      (i2c_write_byte_bits v 8).getD t 0 = 128 ∧
      ¬((i2c_write_byte_bits v 8).getD t 0 = 0 ∨ (i2c_write_byte_bits v 8).getD t 0 = 1)) ∧
    (∀ d b, i2c_write_bit d b =
      [.setScl 0, .delayUs d, .setSda (b : Int), .delayUs d, .setScl 1, .delayUs (2 * d)]) := by
  refine ⟨write_byte_bits_mask v hv, ?_, ?_, fun d b => rfl⟩
  · intro b hb
    rcases write_byte_bits_mask v hv b hb with h | h <;> omega
  · intro t ht hbit
    have h := write_byte_bits_high v hv t ht hbit
    exact ⟨h, by omega⟩

/-- Claim C10 witness at `v = 0xA5`: the first (high) data bit passes 128 to
the data-line setter, a value outside `{0,1}`. -/
theorem i2c_write_bit_arg_values_witness :
    (i2c_write_byte_bits 0xA5 8).getD 0 0 = 128 ∧
    ¬((i2c_write_byte_bits 0xA5 8).getD 0 0 = 0 ∨ (i2c_write_byte_bits 0xA5 8).getD 0 0 = 1) :=
  (i2c_write_bit_arg_values 0xA5 (by decide)).2.2.1 0 (by decide) (by decide)

/-- One transaction-level operation of `i2c_set_register`: a start
condition, a stop condition, or an `i2c_write_byte` of one byte together
with the (negative-logic) acknowledgment it sampled. -/
inductive TxEv
| start
| stop
| writeByte (data : Nat) (nack : Int)
deriving DecidableEq

/-- `i2c_set_register(bus, addr, reg, val)`: start; write the address byte
and on NACK stop and return -1; write the register byte and on NACK stop and
return -1; write the value byte and on NACK stop and return -1; stop; return
0.  Per `i2c_write_byte_result`, the j-th byte write of the call returns
sample `σ (k + 2*j + 1)` and advances the stream position by two. -/
def i2c_set_register (σ : Nat → Int) (k : Nat) (addr reg val : Nat) :
    List TxEv × Int × Nat :=
  let r1 := σ (k + 1)
  if r1 ≠ 0 then
    ([.start, .writeByte addr r1, .stop], -1, k + 2)
  else
    let r2 := σ (k + 3)
    if r2 ≠ 0 then
      ([.start, .writeByte addr r1, .writeByte reg r2, .stop], -1, k + 4)
    else
      let r3 := σ (k + 5)
      if r3 ≠ 0 then
        ([.start, .writeByte addr r1, .writeByte reg r2, .writeByte val r3, .stop], -1, k + 6)
      else
        ([.start, .writeByte addr r1, .writeByte reg r2, .writeByte val r3, .stop], 0, k + 6)

/-- Number of occurrences of a transaction event in a trace. -/
def txCount (e : TxEv) (tr : List TxEv) : Nat :=
  tr.countP (fun x => decide (x = e))

/-- Claim C4: every call of `i2c_set_register` issues exactly one start
condition and exactly one stop condition, on every return path (success or
negative acknowledgment at any of the three bytes). -/
theorem i2c_set_register_one_start_one_stop (σ : Nat → Int) (k addr reg val : Nat) :
    txCount TxEv.start (i2c_set_register σ k addr reg val).1 = 1 ∧
    txCount TxEv.stop (i2c_set_register σ k addr reg val).1 = 1 := by
  simp only [i2c_set_register]
  split_ifs <;> simp [txCount, List.countP_cons]

/-- Claim C3 counterexample: the three refusal sites do not produce distinct
error values — an address-byte NACK, a register-byte NACK and a value-byte
NACK all make `i2c_set_register` return the same value `-1`. -/
theorem i2c_set_register_nack_codes_equal :
    (i2c_set_register (fun _ => 1) 0 0x64 0x3F 0xFF).2.1 = -1 ∧
    (i2c_set_register (fun n => if n = 1 then 0 else 1) 0 0x64 0x3F 0xFF).2.1 = -1 ∧
    (i2c_set_register (fun n => if n = 1 ∨ n = 3 then 0 else 1) 0 0x64 0x3F 0xFF).2.1 = -1 ∧
    (i2c_set_register (fun _ => 1) 0 0x64 0x3F 0xFF).2.1 =
      (i2c_set_register (fun n => if n = 1 then 0 else 1) 0 0x64 0x3F 0xFF).2.1 := by
  refine ⟨rfl, ?_, ?_, ?_⟩ <;> decide

/-- Claim C3 (amended): when the address byte is not acknowledged the call
issues stop and fails; likewise for the register byte and the value byte —
but the three failure outcomes are one and the same error value `-1`; the
refused byte is identified only by the diagnostic message, not by the
returned error. -/
theorem i2c_set_register_nack_behaviour (σ : Nat → Int) (k addr reg val : Nat) :
    (σ (k + 1) ≠ 0 →
      i2c_set_register σ k addr reg val =
        ([.start, .writeByte addr (σ (k + 1)), .stop], -1, k + 2)) ∧
    (σ (k + 1) = 0 → σ (k + 3) ≠ 0 →
      i2c_set_register σ k addr reg val =
        ([.start, .writeByte addr 0, .writeByte reg (σ (k + 3)), .stop], -1, k + 4)) ∧
    (σ (k + 1) = 0 → σ (k + 3) = 0 → σ (k + 5) ≠ 0 →
      i2c_set_register σ k addr reg val =
        ([.start, .writeByte addr 0, .writeByte reg 0, .writeByte val (σ (k + 5)), .stop],
         -1, k + 6)) ∧
    (σ (k + 1) = 0 → σ (k + 3) = 0 → σ (k + 5) = 0 →
      i2c_set_register σ k addr reg val =
        ([.start, .writeByte addr 0, .writeByte reg 0, .writeByte val 0, .stop],
         0, k + 6)) := by
  refine ⟨fun h1 => ?_, fun h1 h2 => ?_, fun h1 h2 h3 => ?_, fun h1 h2 h3 => ?_⟩ <;>
    simp [i2c_set_register, h1] <;> simp [h2] <;> simp [h3]

/-- Claim C3 witness: an all-NACK bus refuses the address byte; the call
stops and fails with `-1`. -/
theorem i2c_set_register_nack_behaviour_witness :
    i2c_set_register (fun _ => 1) 0 0x64 0x3F 0xFF =
      ([.start, .writeByte 0x64 1, .stop], -1, 2) :=
  (i2c_set_register_nack_behaviour (fun _ => 1) 0 0x64 0x3F 0xFF).1 (by decide)

/-- One observable action of the LP5569 driver layer: an attempted register
write (`i2c_set_register` call with device address, register and value), or
a `udelay`.  The LP5569 code only observes the `int` result of each
`i2c_set_register` call, so this layer is parameterized by an oracle
`res : Nat → Int` giving the result of the j-th call of a run. -/
inductive LpEv
| regWrite (addr reg val : Nat)
| delayUs (us : Nat)
deriving DecidableEq

/-- `lp5569_set_register(bus, reg, val)`: one `i2c_set_register` call at the
fixed device address `0x64`, its result taken from the oracle. -/
def lp5569_set_register (res : Nat → Int) (j : Nat) (reg val : Nat) :
    List LpEv × Int × Nat :=
  ([.regWrite 0x64 reg val], res j, j + 1)

/-- The loop of `lp5569_write_bulk`: for `i = 0, 1, …`, write `buf[i]` to
register `(reg + i) & 0xFF` (the register argument is a `uint8_t`),
returning the first nonzero result immediately. -/
def lp5569_write_bulk_go (res : Nat → Int) (b : Nat) :
    Nat → Nat → List Nat → List LpEv × Int × Nat
  | j, _, [] => ([], 0, j)
  | j, i, v :: rest =>
    let (t, r, j2) := lp5569_set_register res j ((b + i) % 256) v
    if r ≠ 0 then (t, r, j2)
    else
      let (t2, r2, j3) := lp5569_write_bulk_go res b j2 (i + 1) rest
      (t ++ t2, r2, j3)

/-- `lp5569_write_bulk(bus, reg, buf, buf_size)`: one `lp5569_set_register`
per byte at `reg + index`, in order, short-circuiting on the first failure. -/
def lp5569_write_bulk (res : Nat → Int) (j : Nat) (b : Nat) (buf : List Nat) :
    List LpEv × Int × Nat :=
  lp5569_write_bulk_go res b j 0 buf

/-- `lp5569_engine_load_program`: engine-control-2 := 0x54 (load). -/
def lp5569_engine_load_program (res : Nat → Int) (j : Nat) : List LpEv × Int × Nat :=
  lp5569_set_register res j 0x02 0x54

/-- `lp5569_engine_halt`: engine-control-2 := 0x00 (halt). -/
def lp5569_engine_halt (res : Nat → Int) (j : Nat) : List LpEv × Int × Nat :=
  lp5569_set_register res j 0x02 0x00

/-- `lp5569_engine_run`: engine-control-2 := 0x80 (run), then on success
engine-control-1 := 0x80 (free run). -/
def lp5569_engine_run (res : Nat → Int) (j : Nat) : List LpEv × Int × Nat :=
  let (t1, r1, j1) := lp5569_set_register res j 0x02 0x80
  if r1 ≠ 0 then (t1, r1, j1)
  else
    let (t2, r2, j2) := lp5569_set_register res j1 0x01 0x80
    if r2 ≠ 0 then (t1 ++ t2, r2, j2)
    else (t1 ++ t2, 0, j2)

/-- `lp5569_mem_page_select(bus, is_mux)`: page-select register := 1 for the
mux page, 0 for the program page. -/
def lp5569_mem_page_select (res : Nat → Int) (j : Nat) (is_mux : Bool) :
    List LpEv × Int × Nat :=
  lp5569_set_register res j 0x4F (if is_mux then 0x01 else 0x00)

/-- The two fixed LED-mux tapes (`led_mux_tapes`): each is a
`uint8_t[32]` with 12 bytes given explicitly and the rest zero-filled. -/
def led_mux_tape0 : List Nat :=
  [0x00, 0x02, 0x00, 0x20, 0x00, 0x80, 0x00, 0x04, 0x00, 0x10, 0x01, 0x00]
    ++ List.replicate 20 0

/-- Second fixed LED-mux tape (rows selecting the three red LEDs). -/
def led_mux_tape1 : List Nat :=
  [0x00, 0x49, 0x00, 0x49, 0x00, 0x49, 0x00, 0x49, 0x00, 0x49, 0x00, 0x49]
    ++ List.replicate 20 0

/-- `led_mux_tapes[2][32]`. -/
def led_mux_tapes : List (List Nat) := [led_mux_tape0, led_mux_tape1]

/-- The fixed instruction program `led_prog` (`uint8_t[32]`, zero-filled
past the 14 explicit bytes; `0x10` is `LP5569_MEM_LEDMUX_LOCATION`). -/
def led_prog : List Nat :=
  [0x9c, 0x10, 0x9c, 0x95, 0x40, 0xff, 0x7E, 0x00, 0x40, 0x00, 0x9D, 0x80, 0xA0, 0x02]
    ++ List.replicate 18 0

/-- `lp5569_run_program(bus, led_mux_buf, led_mux_buf_len, prog_buf,
prog_buf_len)`: reject inputs longer than 32 bytes before any bus I/O, else
load-program mode, mux page, bulk-write the mux bytes at the base
program-memory register 0x50, program page, bulk-write the program bytes at
0x50, halt, run — each step aborting the remaining ones on failure. -/
def lp5569_run_program (res : Nat → Int) (j : Nat) (led_mux_buf prog_buf : List Nat) :
    List LpEv × Int × Nat :=
  if 32 < led_mux_buf.length ∨ 32 < prog_buf.length then ([], -1, j)
  else
    let (t1, r1, j1) := lp5569_engine_load_program res j
    if r1 ≠ 0 then (t1, r1, j1) else
    let (t2, r2, j2) := lp5569_mem_page_select res j1 true
    if r2 ≠ 0 then (t1 ++ t2, r2, j2) else
    let (t3, r3, j3) := lp5569_write_bulk res j2 0x50 led_mux_buf
    if r3 ≠ 0 then (t1 ++ t2 ++ t3, r3, j3) else
    let (t4, r4, j4) := lp5569_mem_page_select res j3 false
    if r4 ≠ 0 then (t1 ++ t2 ++ t3 ++ t4, r4, j4) else
    let (t5, r5, j5) := lp5569_write_bulk res j4 0x50 prog_buf
    if r5 ≠ 0 then (t1 ++ t2 ++ t3 ++ t4 ++ t5, r5, j5) else
    let (t6, r6, j6) := lp5569_engine_halt res j5
    if r6 ≠ 0 then (t1 ++ t2 ++ t3 ++ t4 ++ t5 ++ t6, r6, j6) else
    let (t7, r7, j7) := lp5569_engine_run res j6
    (t1 ++ t2 ++ t3 ++ t4 ++ t5 ++ t6 ++ t7, r7, j7)

/-- `lp5569_play_tape(bus, tape_index)`: reject an index not below the tape
count (`sizeof(led_mux_tapes) / 32 = 2`) before any bus I/O, else run the
selected 32-byte tape together with the fixed instruction program. -/
def lp5569_play_tape (res : Nat → Int) (j : Nat) (tape_index : Nat) :
    List LpEv × Int × Nat :=
  if led_mux_tapes.length ≤ tape_index then ([], -1, j)
  else lp5569_run_program res j (led_mux_tapes.getD tape_index []) led_prog

/-- Mapping over `range (n + 1)` peels off the first index. -/
theorem range_map_shift {α : Type} (f : Nat → α) (n : Nat) :
    (List.range (n + 1)).map f = f 0 :: (List.range n).map (fun t => f (t + 1)) := by
  rw [List.range_succ_eq_map, List.map_cons, List.map_map]
  rfl

/-- When every register write of the run is acknowledged, the bulk-write
loop performs one write per byte, at consecutive (byte-truncated)
addresses, and succeeds. -/
theorem write_bulk_go_all_ack (res : Nat → Int) (b : Nat) :
    ∀ (l : List Nat) (j i : Nat), (∀ t, t < l.length → res (j + t) = 0) →
      lp5569_write_bulk_go res b j i l =
        ((List.range l.length).map
            (fun t => LpEv.regWrite 0x64 ((b + i + t) % 256) (l.getD t 0)),
         0, j + l.length)
  | [], j, i, _ => by simp [lp5569_write_bulk_go]
  | v :: rest, j, i, h => by
    have h0 : res j = 0 := by simpa using h 0 (by simp)
    have ih := write_bulk_go_all_ack res b rest (j + 1) (i + 1)
      (fun t ht => by
        have := h (t + 1) (by simpa using Nat.succ_lt_succ ht)
        rwa [show j + (t + 1) = j + 1 + t by omega] at this)
    simp only [lp5569_write_bulk_go, lp5569_set_register, h0, ne_eq,
      not_true_eq_false, if_false, ih, List.length_cons, List.singleton_append,
      Prod.mk.injEq]
    refine ⟨?_, by trivial, by omega⟩
    rw [range_map_shift, List.cons_eq_cons]
    refine ⟨by simp, (List.map_congr_left fun a _ => ?_).symm⟩
    simp only [List.getD_cons_succ]
    rw [show b + i + (a + 1) = b + (i + 1) + a by omega]

/-- If the writes before position `m` are acknowledged and the write at
position `m` fails, the bulk-write loop performs exactly the first `m + 1`
writes and returns that failure. -/
theorem write_bulk_go_first_fail (res : Nat → Int) (b : Nat) :
    ∀ (l : List Nat) (j i m : Nat), m < l.length →
      (∀ t, t < m → res (j + t) = 0) → res (j + m) ≠ 0 →
      lp5569_write_bulk_go res b j i l =
        ((List.range (m + 1)).map
            (fun t => LpEv.regWrite 0x64 ((b + i + t) % 256) (l.getD t 0)),
         res (j + m), j + m + 1)
  | [], _, _, m, hm, _, _ => by simp at hm
  | v :: rest, j, i, 0, _, _, hfail => by
    have h0 : res j ≠ 0 := by simpa using hfail
    rw [range_map_shift]
    simp [lp5569_write_bulk_go, lp5569_set_register, h0]
  | v :: rest, j, i, m + 1, hm, hok, hfail => by
    have h0 : res j = 0 := by simpa using hok 0 (by omega)
    have ih := write_bulk_go_first_fail res b rest (j + 1) (i + 1) m
      (by simpa using Nat.lt_of_succ_lt_succ hm)
      (fun t ht => by
        have := hok (t + 1) (by omega)
        rwa [show j + (t + 1) = j + 1 + t by omega] at this)
      (by rwa [show j + 1 + m = j + (m + 1) by omega])
    simp only [lp5569_write_bulk_go, lp5569_set_register, h0, ne_eq,
      not_true_eq_false, if_false, ih, List.singleton_append, Prod.mk.injEq]
    refine ⟨?_, by rw [show j + 1 + m = j + (m + 1) by omega], by omega⟩
    conv_rhs => rw [range_map_shift]
    rw [List.cons_eq_cons]
    refine ⟨by simp, (List.map_congr_left fun a _ => ?_).symm⟩
    simp only [List.getD_cons_succ]
    rw [show b + i + (a + 1) = b + (i + 1) + a by omega]

/-- Claim C6: for every byte array and base register, `lp5569_write_bulk`
performs register writes at consecutive addresses `b, b+1, …` (as bytes)
with the array's bytes in order; if every write up to position `m` succeeds
and the write at `m` fails, exactly `m + 1` write attempts are performed and
that failure is returned; if all succeed, exactly `n` attempts are performed
and the call succeeds. -/
theorem lp5569_write_bulk_sequential (res : Nat → Int) (j b : Nat) (buf : List Nat)
    (hb : b < 256) (hn : buf.length ≤ 255) :
    ((∀ t, t < buf.length → res (j + t) = 0) →
      lp5569_write_bulk res j b buf =
        ((List.range buf.length).map
            (fun t => LpEv.regWrite 0x64 ((b + t) % 256) (buf.getD t 0)),
         0, j + buf.length)) ∧
    (∀ m, m < buf.length → (∀ t, t < m → res (j + t) = 0) → res (j + m) ≠ 0 →
      lp5569_write_bulk res j b buf =
        ((List.range (m + 1)).map
            (fun t => LpEv.regWrite 0x64 ((b + t) % 256) (buf.getD t 0)),
         res (j + m), j + m + 1)) := by
  constructor
  · intro h
    simpa using write_bulk_go_all_ack res b buf j 0 h
  · intro m hm hok hfail
    simpa using write_bulk_go_first_fail res b buf j 0 m hm hok hfail

/-- Claim C6 witness: base 5, bytes `[10, 20, 30]`, second write refused —
exactly two attempts, at addresses 5 and 6, returning the failure; and the
all-acknowledged run performs all three writes and succeeds. -/
theorem lp5569_write_bulk_sequential_witness :
    lp5569_write_bulk (fun t => if t = 1 then -1 else 0) 0 5 [10, 20, 30] =
      ([LpEv.regWrite 0x64 5 10, LpEv.regWrite 0x64 6 20], -1, 2) ∧
    lp5569_write_bulk (fun _ => 0) 0 5 [10, 20, 30] =
      ([LpEv.regWrite 0x64 5 10, LpEv.regWrite 0x64 6 20, LpEv.regWrite 0x64 7 30], 0, 3) := by
  constructor
  · have h := (lp5569_write_bulk_sequential (fun t => if t = 1 then -1 else 0) 0 5
      [10, 20, 30] (by decide) (by decide)).2 1 (by decide)
      (by intro t ht; interval_cases t <;> decide) (by decide)
    simpa using h
  · have h := (lp5569_write_bulk_sequential (fun _ => (0 : Int)) 0 5
      [10, 20, 30] (by decide) (by decide)).1 (fun t _ => rfl)
    simpa using h

/-- Claim C7: when the mux table or the instruction array is longer than 32
bytes, `lp5569_run_program` fails with the program-too-large error (-1) and
performs zero bus I/O: its trace is empty and the call counter is untouched. -/
theorem lp5569_run_program_too_large (res : Nat → Int) (j : Nat)
    (mux prog : List Nat) (h : 32 < mux.length ∨ 32 < prog.length) :
    lp5569_run_program res j mux prog = ([], -1, j) := by
  unfold lp5569_run_program
  rw [if_pos h]

/-- Claim C7 witness: a 33-byte mux table is rejected with no bus I/O. -/
theorem lp5569_run_program_too_large_witness :
    lp5569_run_program (fun _ => 0) 0 (List.replicate 33 0) led_prog = ([], -1, 0) :=
  lp5569_run_program_too_large (fun _ => 0) 0 (List.replicate 33 0) led_prog
    (Or.inl (by simp))

/-- Claim C2: for input arrays of length at most 32, with every register
write acknowledged, `lp5569_run_program` produces exactly the register-write
sequence: engine-control-2 := 0x54 (load), page-select := 1, the mux bytes
in order from the base program-memory register 0x50, page-select := 0, the
program bytes in order from 0x50, engine-control-2 := 0x00 (halt),
engine-control-2 := 0x80 (run), engine-control-1 := 0x80 — in that order
with no other register writes interleaved. -/
theorem lp5569_run_program_write_sequence (res : Nat → Int) (j : Nat)
    (mux prog : List Nat) (hm : mux.length ≤ 32) (hp : prog.length ≤ 32)
    (hres : ∀ t, res t = 0) :
    lp5569_run_program res j mux prog =
      ([LpEv.regWrite 0x64 0x02 0x54, LpEv.regWrite 0x64 0x4F 0x01]
        ++ (List.range mux.length).map
            (fun t => LpEv.regWrite 0x64 (0x50 + t) (mux.getD t 0))
        ++ [LpEv.regWrite 0x64 0x4F 0x00]
        ++ (List.range prog.length).map
            (fun t => LpEv.regWrite 0x64 (0x50 + t) (prog.getD t 0))
        ++ [LpEv.regWrite 0x64 0x02 0x00, LpEv.regWrite 0x64 0x02 0x80,
            LpEv.regWrite 0x64 0x01 0x80],
       0, j + (mux.length + prog.length + 6)) := by
  have hguard : ¬(32 < mux.length ∨ 32 < prog.length) := by omega
  have hmod : ∀ (l : List Nat), l.length ≤ 32 →
      (List.range l.length).map
          (fun t => LpEv.regWrite 0x64 ((0x50 + 0 + t) % 256) (l.getD t 0)) =
        (List.range l.length).map
          (fun t => LpEv.regWrite 0x64 (0x50 + t) (l.getD t 0)) := by
    intro l hl
    refine List.map_congr_left fun a ha => ?_
    have h1 := List.mem_range.mp ha
    rw [show (0x50 + 0 + a) % 256 = 0x50 + a by omega]
  have hmux := write_bulk_go_all_ack res 0x50 mux (j + 1 + 1) 0 (fun t _ => hres _)
  have hprog := write_bulk_go_all_ack res 0x50 prog (j + 1 + 1 + mux.length + 1) 0
    (fun t _ => hres _)
  rw [hmod mux hm] at hmux
  rw [hmod prog hp] at hprog
  simp only [lp5569_run_program, hguard, if_false, lp5569_engine_load_program,
    lp5569_mem_page_select, lp5569_write_bulk, lp5569_engine_halt, lp5569_engine_run,
    lp5569_set_register, hres, ne_eq, not_true_eq_false, if_true, if_false,
    eq_self_iff_true, not_false_iff, hmux, hprog, ite_false, ite_true, Prod.mk.injEq]
  refine ⟨?_, by trivial, by omega⟩
  simp [List.append_assoc]

/-- Claim C2 witness: a 2-byte mux table and a 1-byte program on an
all-acknowledging bus produce exactly the claimed register-write sequence. -/
theorem lp5569_run_program_write_sequence_witness :
    lp5569_run_program (fun _ => 0) 0 [1, 2] [3] =
      ([LpEv.regWrite 0x64 0x02 0x54, LpEv.regWrite 0x64 0x4F 0x01]
        ++ (List.range ([1, 2] : List Nat).length).map
            (fun t => LpEv.regWrite 0x64 (0x50 + t) (([1, 2] : List Nat).getD t 0))
        ++ [LpEv.regWrite 0x64 0x4F 0x00]
        ++ (List.range ([3] : List Nat).length).map
            (fun t => LpEv.regWrite 0x64 (0x50 + t) (([3] : List Nat).getD t 0))
        ++ [LpEv.regWrite 0x64 0x02 0x00, LpEv.regWrite 0x64 0x02 0x80,
            LpEv.regWrite 0x64 0x01 0x80],
       0, 0 + (([1, 2] : List Nat).length + ([3] : List Nat).length + 6)) :=
  lp5569_run_program_write_sequence (fun _ => 0) 0 [1, 2] [3]
    (by decide) (by decide) (fun _ => rfl)

/-- Claim C8: `lp5569_play_tape` with an index outside the two known tapes
fails with the index-out-of-range error (-1) and performs zero bus I/O; with
an index in range it runs `lp5569_run_program` on that tape's mux table and
the single fixed instruction program. -/
theorem lp5569_play_tape_guard (res : Nat → Int) (j : Nat) (tape_index : Nat) :
    (2 ≤ tape_index → lp5569_play_tape res j tape_index = ([], -1, j)) ∧
    (tape_index < 2 → lp5569_play_tape res j tape_index =
      lp5569_run_program res j (led_mux_tapes.getD tape_index []) led_prog) := by
  constructor
  · intro h
    unfold lp5569_play_tape
    rw [if_pos (by simpa [led_mux_tapes] using h)]
  · intro h
    unfold lp5569_play_tape
    rw [if_neg (by simpa [led_mux_tapes] using Nat.not_le.mpr h)]

/-- Claim C8 witness: index 2 is rejected with no bus I/O; index 0 plays
tape 0 through `lp5569_run_program`. -/
theorem lp5569_play_tape_guard_witness :
    lp5569_play_tape (fun _ => 0) 0 2 = ([], -1, 0) ∧
    lp5569_play_tape (fun _ => 0) 0 0 =
      lp5569_run_program (fun _ => 0) 0 (led_mux_tapes.getD 0 []) led_prog :=
  ⟨(lp5569_play_tape_guard (fun _ => 0) 0 2).1 (by decide),
   (lp5569_play_tape_guard (fun _ => 0) 0 0).2 (by decide)⟩

/-- The thirteen register writes of `lp5569_init`, in source order: reset
(0x3F := 0xFF), chip enable (config 0x00 := 1 << 6), miscellaneous
configuration (0x2F := 1 << 0 | 3 << 3 | 1 << 6 = 0x59), engine-1 program
start address (0x4B := 0x00), then the nine per-channel current registers
(red = 10 on LED 0/3/6, green = 3 on LED 1/4/7, blue = 8 on LED 2/5/8). -/
def lp5569_init_writes : List (Nat × Nat) :=
  [(0x3F, 0xFF), (0x00, 0x40), (0x2F, 0x59), (0x4B, 0x00),
   (0x22, 10), (0x25, 10), (0x28, 10),
   (0x23, 3), (0x26, 3), (0x29, 3),
   (0x24, 8), (0x27, 8), (0x2A, 8)]

/-- A straight-line sequence of `lp5569_set_register` calls returning the
first nonzero result immediately — the shape of `lp5569_init`'s body. -/
def seqSetRegisters (res : Nat → Int) : Nat → List (Nat × Nat) → List LpEv × Int × Nat
  | j, [] => ([], 0, j)
  | j, rv :: rest =>
    let (t, r, j2) := lp5569_set_register res j rv.1 rv.2
    if r ≠ 0 then (t, r, j2)
    else
      let (t2, r2, j3) := seqSetRegisters res j2 rest
      (t ++ t2, r2, j3)

/-- `lp5569_init(bus)`: the thirteen configuration writes in order, with
early exit on the first failure. -/
def lp5569_init (res : Nat → Int) (j : Nat) : List LpEv × Int × Nat :=
  seqSetRegisters res j lp5569_init_writes

/-- The retry loop of `lp5569_cmd`: `for (i = 0; i < 15; i++) { if ((ret =
lp5569_init(..)) != 0) udelay(100 * 1000); else break; }`, modelled with the
remaining iteration count as fuel.  A failed attempt is always followed by
the 100 ms delay (including the last one); a successful attempt stops the
loop. -/
def lp5569_init_retry (res : Nat → Int) : Nat → Nat → List LpEv × Int × Nat
  | j, 0 => ([], 0, j)
  | j, n + 1 =>
    let (t, r, j2) := lp5569_init res j
    if r ≠ 0 then
      if n = 0 then (t ++ [.delayUs 100000], r, j2)
      else
        let (t2, r2, j3) := lp5569_init_retry res j2 n
        (t ++ [.delayUs 100000] ++ t2, r2, j3)
    else (t, r, j2)

/-- Environment of one `lp5569_cmd` run: the register-write oracle together
with the results of `i2c_init` (GPIO line acquisition) and `i2c_deinit`
(GPIO line release), which depend only on the external GPIO subsystem. -/
structure CmdEnv where
  res : Nat → Int
  i2cInitRet : Int
  i2cDeinitRet : Int

/-- Modelled from the spec: `cmd_process_error` is the U-Boot command-core
helper (code of this repository that is not under `src/`) through which the
command reports an error to its caller; the spec says every failure is
reported with its raw error code, so it is modelled as reporting exactly the
code it is given. -/
def cmd_process_error (err : Int) : Int := err

/-- `lp5569_cmd(tape_index, ...)`: `i2c_init`, then up to 15 `lp5569_init`
attempts with a 100 ms delay after each failure, then (only if some attempt
succeeded) `lp5569_play_tape`, then `i2c_deinit`.  Note the source computes
`ret2 = (i2c_deinit(&gpio_i2c) != 0)`, i.e. `ret2` is 1 or 0, and only when
`ret2` is nonzero does it report `ret ? ret : ret2`; otherwise it returns 0. -/
def lp5569_cmd (env : CmdEnv) (tape_index : Nat) : List LpEv × Int :=
  if env.i2cInitRet ≠ 0 then ([], cmd_process_error env.i2cInitRet)
  else
    let (t1, r1, j1) := lp5569_init_retry env.res 0 15
    let (tr, ret) :=
      if r1 ≠ 0 then (t1, r1)
      else
        let (tp, rp, _) := lp5569_play_tape env.res j1 tape_index
        (t1 ++ tp, rp)
    let ret2 : Int := if env.i2cDeinitRet ≠ 0 then 1 else 0
    if ret2 ≠ 0 then (tr, cmd_process_error (if ret ≠ 0 then ret else ret2))
    else (tr, 0)

/-- Whether an event is the chip-reset write (0x3F := 0xFF) that begins
every `lp5569_init` attempt.  No other write of the driver targets register
0x3F, so counting these events counts initialization attempts. -/
def isResetWrite : LpEv → Bool
  | .regWrite a r v => a == 0x64 && r == 0x3F && v == 0xFF
  | _ => false

/-- Number of initialization attempts visible in a trace. -/
def countInitAttempts (tr : List LpEv) : Nat := tr.countP isResetWrite

/-- Number of 100 ms retry delays visible in a trace. -/
def countRetryDelays (tr : List LpEv) : Nat :=
  tr.countP (fun e => decide (e = LpEv.delayUs 100000))

/-- The trace of a write sequence counts at most what the full write list
would count. -/
theorem seqSetRegisters_countP_le (res : Nat → Int) (p : LpEv → Bool) :
    ∀ (l : List (Nat × Nat)) (j : Nat),
      (seqSetRegisters res j l).1.countP p ≤
        (l.map (fun rv => LpEv.regWrite 0x64 rv.1 rv.2)).countP p
  | [], j => by simp [seqSetRegisters]
  | rv :: rest, j => by
    have ih := seqSetRegisters_countP_le res p rest (j + 1)
    by_cases h : res j ≠ 0 <;>
      simp [seqSetRegisters, lp5569_set_register, h, List.countP_cons,
        List.countP_append, List.countP_map] at ih ⊢ <;>
      omega

/-- The first write of a nonempty sequence is always attempted. -/
theorem seqSetRegisters_countP_first (res : Nat → Int) (p : LpEv → Bool)
    (rv : Nat × Nat) (rest : List (Nat × Nat)) (j : Nat)
    (hp : p (LpEv.regWrite 0x64 rv.1 rv.2) = true) :
    1 ≤ (seqSetRegisters res j (rv :: rest)).1.countP p := by
  by_cases h : res j ≠ 0 <;>
    simp [seqSetRegisters, lp5569_set_register, h, List.countP_cons,
      List.countP_append, hp] <;>
    omega

/-- Every call of `lp5569_init` performs exactly one reset write, whatever
the bus answers. -/
theorem lp5569_init_one_attempt (res : Nat → Int) (j : Nat) :
    countInitAttempts (lp5569_init res j).1 = 1 := by
  have hlist : lp5569_init_writes = (0x3F, 0xFF) :: lp5569_init_writes.tail := rfl
  have h1 := seqSetRegisters_countP_le res isResetWrite lp5569_init_writes j
  have h2 := seqSetRegisters_countP_first res isResetWrite (0x3F, 0xFF)
    lp5569_init_writes.tail j (by decide)
  rw [← hlist] at h2
  have hmap :
      ((lp5569_init_writes.map (fun rv => LpEv.regWrite 0x64 rv.1 rv.2)).countP
        isResetWrite) = 1 := by decide
  unfold lp5569_init countInitAttempts
  omega

/-- The retry loop with fuel `n` performs at most `n` initialization
attempts. -/
theorem init_retry_attempt_bound (res : Nat → Int) :
    ∀ (n j : Nat), countInitAttempts (lp5569_init_retry res j n).1 ≤ n
  | 0, j => by simp [lp5569_init_retry, countInitAttempts]
  | n + 1, j => by
    rcases he : lp5569_init res j with ⟨t, r, j2⟩
    have h1 : countInitAttempts t = 1 := by
      have h := lp5569_init_one_attempt res j
      rw [he] at h
      exact h
    have ih := init_retry_attempt_bound res n j2
    by_cases h : r = 0
    · subst h
      simp only [lp5569_init_retry, he, ne_eq, not_true_eq_false, ite_false, if_false]
      simp only [countInitAttempts] at h1 ⊢
      omega
    · have h2 : r ≠ 0 := h
      by_cases hn : n = 0
      · subst hn
        simp only [lp5569_init_retry, he]
        rw [if_pos h2]
        simp [countInitAttempts, List.countP_append, isResetWrite] at h1 ⊢
        omega
      · simp only [lp5569_init_retry, he]
        rw [if_pos h2, if_neg hn]
        simp [countInitAttempts, List.countP_append, List.countP_cons,
          isResetWrite] at h1 ih ⊢
        omega

/-- If the first attempt of a nonzero-fuel retry loop succeeds, the loop
stops immediately: it is exactly one `lp5569_init` call. -/
theorem init_retry_stops_on_success (res : Nat → Int) (j n : Nat) (hn : n ≠ 0)
    (h0 : (lp5569_init res j).2.1 = 0) :
    lp5569_init_retry res j n = lp5569_init res j := by
  obtain ⟨m, rfl⟩ : ∃ m, n = m + 1 := ⟨n - 1, by omega⟩
  rcases he : lp5569_init res j with ⟨t, r, j2⟩
  have hr : r = 0 := by rw [he] at h0; exact h0
  subst hr
  simp [lp5569_init_retry, he]

/-- The oracle of the C9 scenario: the first two register writes are
refused (so the first two `lp5569_init` attempts fail at their very first
write), every later write is acknowledged. -/
def scenRes : Nat → Int := fun j => if j < 2 then -1 else 0

/-- The C9 scenario environment: GPIO acquisition and release succeed. -/
def scenEnv : CmdEnv := ⟨scenRes, 0, 0⟩

/-- Claim C9: the command orchestration attempts chip initialization at
most 15 times, stops retrying at the first success, and inserts the fixed
100 ms delay after each failed attempt; in the scenario where the first two
attempts fail and the third succeeds, exactly 3 initialization attempts and
2 retry delays occur, and the run proceeds to play the tape (the final
engine-control-1 := 0x80 write appears exactly once) and succeeds. -/
theorem lp5569_cmd_init_retry_policy :
    (∀ (res : Nat → Int) (j : Nat),
      countInitAttempts (lp5569_init_retry res j 15).1 ≤ 15) ∧
    (∀ (res : Nat → Int) (j : Nat), (lp5569_init res j).2.1 = 0 →
      lp5569_init_retry res j 15 = lp5569_init res j) ∧
    (countInitAttempts (lp5569_cmd scenEnv 0).1 = 3 ∧
     countRetryDelays (lp5569_cmd scenEnv 0).1 = 2 ∧
     (lp5569_cmd scenEnv 0).1.countP
        (fun e => decide (e = LpEv.regWrite 0x64 0x01 0x80)) = 1 ∧
     (lp5569_cmd scenEnv 0).2 = 0) := by
  refine ⟨fun res j => init_retry_attempt_bound res 15 j,
    fun res j h0 => init_retry_stops_on_success res j 15 (by omega) h0,
    by decide, by decide, by decide, by decide⟩

/-- Claim C9 witness: on an all-acknowledging bus the first attempt
succeeds and the retry loop is exactly one `lp5569_init` call. -/
theorem lp5569_cmd_init_retry_policy_witness :
    lp5569_init_retry (fun _ => 0) 0 15 = lp5569_init (fun _ => 0) 0 :=
  lp5569_cmd_init_retry_policy.2.1 (fun _ => 0) 0 (by decide)

/-- The all-refused oracle: every register write fails, so every
`lp5569_init` attempt fails at its first write. -/
def allNackRes : Nat → Int := fun _ => -1

/-- Claim C1 (code bug evaluated at the failing input): with every
initialization attempt failing (`allNackRes`) and bus teardown succeeding,
the retry loop ends with the nonzero operational error `-1`, yet
`lp5569_cmd` returns 0, reporting success to its caller — the operational
error is masked whenever teardown succeeds, and surfaces (with priority
over the teardown result) only when teardown also fails. -/
theorem lp5569_cmd_masks_operational_error :
    (lp5569_init_retry allNackRes 0 15).2.1 = -1 ∧
    (lp5569_cmd ⟨allNackRes, 0, 0⟩ 0).2 = 0 ∧
    (lp5569_cmd ⟨allNackRes, 0, 1⟩ 0).2 = -1 := by
  exact ⟨by decide, by decide, by decide⟩

end UBoot
